import Mathlib

/-!
Verification of the scoring-and-ranking core of the Sri Lanka district
dashboard (`src/District_Dashboard/Dashboard3.py`, lines 57–80).

The embedding mirrors the pandas/sklearn pipeline:
  * a data frame is a list of column names together with rows; a row is a
    total valuation `String → ℚ` (pandas rows carry a value for every column
    of the frame; column-missing errors are raised from the frame's column
    list, as pandas does);
  * `features df = df.cols.drop 1` mirrors `features = df.columns[1:]`;
  * `MinMaxScaler.fit_transform` divides by the column range, guarded by
    sklearn's `_handle_zeros_in_scale` which replaces a zero range by 1;
    it raises `ValueError` on an input with zero rows;
  * the polarity loop `for b in bad: scaled_data[b] = 1 - scaled_data[b]`
    raises a pandas `KeyError` when a bad column is absent;
  * `scaled_data[good + bad]` raises `KeyError` when any listed column is
    absent; `.mean(axis=1)` is the arithmetic mean of the listed columns;
  * `.rank(ascending=False, method='min')` assigns to each score one plus
    the number of strictly larger scores.
Real arithmetic is embedded as exact rational arithmetic.
-/

namespace Dashboard

/-- Errors the pipeline can raise.  `keyError` is pandas' `KeyError` on a
missing column label; `valueError` is sklearn's `ValueError` on an input with
zero samples.  `invalidSchemaError` is Modelled from the spec: the spec names
a dedicated `InvalidSchemaError` class, but no such class is defined or
raised anywhere in the source; the constructor exists only so that the
spec's error taxonomy can be compared with the code's. -/
inductive PipelineError where
  | keyError : PipelineError
  | valueError : PipelineError
  | invalidSchemaError : PipelineError
deriving DecidableEq, Repr

/-- A pandas data frame: ordered column labels and rows.  A row is a total
valuation of column labels; only the labels in `cols` are meaningful. -/
structure DataFrame where
  cols : List String
  rows : List (String → ℚ)

/-- `features = df.columns[1:]` — every column except the entity identifier. -/
def features (df : DataFrame) : List String := df.cols.drop 1

/-- sklearn `_handle_zeros_in_scale`: a zero range is replaced by 1 so the
scaler never divides by zero. -/
def handleZerosInScale (d : ℚ) : ℚ := if d = 0 then 1 else d

/-- One value through `MinMaxScaler`: `(v - min) / (max - min)` with the
zero-range guard. -/
def minMaxScale (mn mx v : ℚ) : ℚ := (v - mn) / handleZerosInScale (mx - mn)

/-- The values of column `c` down the frame. -/
def colVals (df : DataFrame) (c : String) : List ℚ :=
  df.rows.map (fun r => r c)

/-- Minimum of a list of rationals (0 on the empty list, never used there). -/
def listMin : List ℚ → ℚ
  | [] => 0
  | v :: vs => vs.foldl min v

/-- Maximum of a list of rationals (0 on the empty list, never used there). -/
def listMax : List ℚ → ℚ
  | [] => 0
  | v :: vs => vs.foldl max v

/-- Column minimum over the batch, as fitted by the scaler. -/
def colMin (df : DataFrame) (c : String) : ℚ := listMin (colVals df c)

/-- Column maximum over the batch, as fitted by the scaler. -/
def colMax (df : DataFrame) (c : String) : ℚ := listMax (colVals df c)

/-- One row through `scaled_data[features] = scaler.fit_transform(df[features])`:
feature columns are min-max scaled with the statistics fitted on `df`, the
identifier column passes through unchanged. -/
def normRow (df : DataFrame) (r : String → ℚ) : String → ℚ :=
  fun c => if c ∈ features df then minMaxScale (colMin df c) (colMax df c) (r c) else r c

/-- `scaled_data[features] = scaler.fit_transform(df[features])` applied to the
copy `scaled_data = df.copy()`. -/
def normalizeDF (df : DataFrame) : DataFrame :=
  { cols := df.cols, rows := df.rows.map (normRow df) }

/-- One iteration of the polarity loop: `scaled_data[b] = 1 - scaled_data[b]`. -/
def invertCol (df : DataFrame) (b : String) : DataFrame :=
  { df with rows := df.rows.map (fun r c => if c = b then 1 - r c else r c) }

/-- The polarity loop `for b in bad: scaled_data[b] = 1 - scaled_data[b]`;
reading `scaled_data[b]` raises `KeyError` when `b` is not a column. -/
def correctPolarity (df : DataFrame) (bad : List String) :
    Except PipelineError DataFrame :=
  bad.foldlM
    (fun acc b => if b ∈ acc.cols then .ok (invertCol acc b) else .error .keyError)
    df

/-- The `good` list of beneficial indicator columns, verbatim from the source. -/
def goodCols : List String :=
  [ "Rain_dist_Mean_Rainfall_mm"
  , "District_Mean_NDVI_2020_2025_Mean_NDVI"
  , "canopy_dist_Mean_Canopy_Height"
  , "treeloss_treecover_Mean_TreeCover2000" ]

/-- The `bad` list of detrimental indicator columns, verbatim from the source. -/
def badCols : List String :=
  [ "co_dist_Mean_CO"
  , "District_Mean_NO2_2019_2024_Mean_NO2"
  , "treeloss_treecover_Forest_Loss_km2"
  , "District_Mean_SI_2020_2025_Mean_SI" ]

/-- Arithmetic mean of a list, `pandas .mean(axis=1)` on the listed columns. -/
def meanList (vs : List ℚ) : ℚ := vs.sum / vs.length

/-- `scaled_data[good + bad].mean(axis=1)` for one row. -/
def scoreRow (sel : List String) (r : String → ℚ) : ℚ :=
  meanList (sel.map r)

/-- `Series.rank(ascending=False, method='min')` for one value: one plus the
number of strictly larger scores in the batch. -/
def rankOf (scores : List ℚ) (s : ℚ) : ℕ :=
  1 + (scores.countP (fun t => decide (s < t)))

/-- The scored output: the corrected normalized frame plus the
`Environmental_Score` and `Rank` columns. -/
structure ScoredFrame where
  cols : List String
  rows : List (String → ℚ)
  scores : List ℚ
  ranks : List ℕ

/-- The whole scoring-and-ranking pipeline, lines 57–80 of the source,
parameterized by the good/bad schema. Errors mirror the Python exceptions:
sklearn's `ValueError` on zero rows, pandas' `KeyError` on a missing
column in the polarity loop or in `scaled_data[good + bad]`. -/
def pipelineWith (good bad : List String) (df : DataFrame) :
    Except PipelineError ScoredFrame :=
  if df.rows.isEmpty then .error .valueError
  else
    match correctPolarity (normalizeDF df) bad with
    | .error e => .error e
    | .ok cd =>
      if (good ++ bad).all (fun c => decide (c ∈ cd.cols)) then
        let scores := cd.rows.map (scoreRow (good ++ bad))
        .ok { cols := cd.cols, rows := cd.rows, scores := scores
            , ranks := scores.map (rankOf scores) }
      else .error .keyError

/-- The pipeline with the source's fixed schema. -/
def pipeline (df : DataFrame) : Except PipelineError ScoredFrame :=
  pipelineWith goodCols badCols df

/-- The polarity loop as a recursion on the bad list (proved equal to
`correctPolarity`'s fold on the rows when every bad column is present). -/
def invertRows (bad : List String) (rows : List (String → ℚ)) :
    List (String → ℚ) :=
  match bad with
  | [] => rows
  | b :: bs => invertRows bs (rows.map (fun r c => if c = b then 1 - r c else r c))

/-- The net effect of the polarity loop on one row: a column listed an odd
number of times is inverted, any other column passes through. -/
def invertFun (bad : List String) (r : String → ℚ) : String → ℚ :=
  fun c => if bad.count c % 2 = 0 then r c else 1 - r c

/-- Scores sorted in descending order, as pandas ranks them. -/
def descSort (l : List ℚ) : List ℚ :=
  l.mergeSort (fun a b => decide (b ≤ a))

/-- The script state around lines 57–80: the raw frame `df` loaded from the
CSV, and the derived `scaled_data` table with its score and rank columns. -/
structure DashState where
  df : DataFrame
  scaled : Except PipelineError ScoredFrame

/-- Lines 57–80 as a state transformation: `scaled_data = df.copy()` followed
by in-place mutation of the copy only; the raw frame is never written. -/
def runScript (s : DashState) : DashState :=
  { s with scaled := pipeline s.df }

/-- A row given by an association list of column values (0 elsewhere). -/
def rowOf (l : List (String × ℚ)) : String → ℚ :=
  fun c => (((l.find? (fun p => decide (p.1 = c))).map Prod.snd).getD 0)

/-- The three-district scenario frame of the spec: `good = {A}`, `bad = {B}`,
raw `A = [10,20,30]`, `B = [5,15,25]`. -/
def dfScenario : DataFrame :=
  { cols := ["id", "A", "B"]
  , rows := [ rowOf [("id", 1), ("A", 10), ("B", 5)]
            , rowOf [("id", 2), ("A", 20), ("B", 15)]
            , rowOf [("id", 3), ("A", 30), ("B", 25)] ] }

/-- A well-formed three-row frame over the source's full schema; the
carbon-monoxide column is constant (7) across the batch. -/
def dfFull : DataFrame :=
  { cols := "ADM2_EN" :: (goodCols ++ badCols)
  , rows :=
    [ rowOf [ ("ADM2_EN", 1), ("Rain_dist_Mean_Rainfall_mm", 10)
            , ("District_Mean_NDVI_2020_2025_Mean_NDVI", 1)
            , ("canopy_dist_Mean_Canopy_Height", 5)
            , ("treeloss_treecover_Mean_TreeCover2000", 50)
            , ("co_dist_Mean_CO", 7)
            , ("District_Mean_NO2_2019_2024_Mean_NO2", 3)
            , ("treeloss_treecover_Forest_Loss_km2", 2)
            , ("District_Mean_SI_2020_2025_Mean_SI", 1) ]
    , rowOf [ ("ADM2_EN", 2), ("Rain_dist_Mean_Rainfall_mm", 20)
            , ("District_Mean_NDVI_2020_2025_Mean_NDVI", 2)
            , ("canopy_dist_Mean_Canopy_Height", 6)
            , ("treeloss_treecover_Mean_TreeCover2000", 60)
            , ("co_dist_Mean_CO", 7)
            , ("District_Mean_NO2_2019_2024_Mean_NO2", 4)
            , ("treeloss_treecover_Forest_Loss_km2", 3)
            , ("District_Mean_SI_2020_2025_Mean_SI", 2) ]
    , rowOf [ ("ADM2_EN", 3), ("Rain_dist_Mean_Rainfall_mm", 30)
            , ("District_Mean_NDVI_2020_2025_Mean_NDVI", 3)
            , ("canopy_dist_Mean_Canopy_Height", 7)
            , ("treeloss_treecover_Mean_TreeCover2000", 70)
            , ("co_dist_Mean_CO", 7)
            , ("District_Mean_NO2_2019_2024_Mean_NO2", 5)
            , ("treeloss_treecover_Forest_Loss_km2", 4)
            , ("District_Mean_SI_2020_2025_Mean_SI", 3) ] ] }

/-- `dfFull` extended with one additional numeric column holding `x₁,x₂,x₃`. -/
def dfWithExtra (x₁ x₂ x₃ : ℚ) : DataFrame :=
  { cols := dfFull.cols ++ ["Extra_Metric"]
  , rows :=
      match dfFull.rows with
      | [r₁, r₂, r₃] =>
        [ fun c => if c = "Extra_Metric" then x₁ else r₁ c
        , fun c => if c = "Extra_Metric" then x₂ else r₂ c
        , fun c => if c = "Extra_Metric" then x₃ else r₃ c ]
      | rs => rs }

/-- A one-row frame missing every schema indicator column. -/
def dfMissing : DataFrame :=
  { cols := ["id", "A"], rows := [rowOf [("id", 1), ("A", 4)]] }

/-- A frame over the full schema with zero rows. -/
def dfEmpty : DataFrame :=
  { cols := "ADM2_EN" :: (goodCols ++ badCols), rows := [] }

/-- The corrected table: normalized rows with the net polarity inversion. -/
def correctedRows (bad : List String) (df : DataFrame) : List (String → ℚ) :=
  (normalizeDF df).rows.map (invertFun bad)

/-- The `Environmental_Score` column produced by the pipeline. -/
def pipeScores (good bad : List String) (df : DataFrame) : List ℚ :=
  (correctedRows bad df).map (scoreRow (good ++ bad))

/-! ### Order facts about the fitted column statistics -/

theorem foldl_min_le_init (vs : List ℚ) (a : ℚ) : vs.foldl min a ≤ a := by
  induction vs generalizing a with
  | nil => exact le_refl a
  | cons v t ih => exact le_trans (ih (min a v)) (min_le_left a v)

theorem foldl_min_le_mem (vs : List ℚ) (a x : ℚ) (hx : x ∈ vs) :
    vs.foldl min a ≤ x := by
  induction vs generalizing a with
  | nil => cases hx
  | cons v t ih =>
    rcases List.mem_cons.mp hx with rfl | h
    · exact le_trans (foldl_min_le_init t (min a x)) (min_le_right a x)
    · exact ih (min a v) h

theorem init_le_foldl_max (vs : List ℚ) (a : ℚ) : a ≤ vs.foldl max a := by
  induction vs generalizing a with
  | nil => exact le_refl a
  | cons v t ih => exact le_trans (le_max_left a v) (ih (max a v))

theorem mem_le_foldl_max (vs : List ℚ) (a x : ℚ) (hx : x ∈ vs) :
    x ≤ vs.foldl max a := by
  induction vs generalizing a with
  | nil => cases hx
  | cons v t ih =>
    rcases List.mem_cons.mp hx with rfl | h
    · exact le_trans (le_max_right a x) (init_le_foldl_max t (max a x))
    · exact ih (max a v) h

theorem listMin_le_mem (vs : List ℚ) (x : ℚ) (hx : x ∈ vs) : listMin vs ≤ x := by
  cases vs with
  | nil => cases hx
  | cons v t =>
    rcases List.mem_cons.mp hx with rfl | h
    · exact foldl_min_le_init t x
    · exact foldl_min_le_mem t v x h

theorem mem_le_listMax (vs : List ℚ) (x : ℚ) (hx : x ∈ vs) : x ≤ listMax vs := by
  cases vs with
  | nil => cases hx
  | cons v t =>
    rcases List.mem_cons.mp hx with rfl | h
    · exact init_le_foldl_max t x
    · exact mem_le_foldl_max t v x h

theorem colMin_le_row (df : DataFrame) (c : String) (r : String → ℚ)
    (hr : r ∈ df.rows) : colMin df c ≤ r c :=
  listMin_le_mem _ _ (List.mem_map.mpr ⟨r, hr, rfl⟩)

theorem row_le_colMax (df : DataFrame) (c : String) (r : String → ℚ)
    (hr : r ∈ df.rows) : r c ≤ colMax df c :=
  mem_le_listMax _ _ (List.mem_map.mpr ⟨r, hr, rfl⟩)

/-! ### The scaler on one value -/

theorem minMaxScale_self (mn mx : ℚ) : minMaxScale mn mx mn = 0 := by
  simp [minMaxScale]

theorem minMaxScale_eq_div (mn mx v : ℚ) (hne : mn ≠ mx) :
    minMaxScale mn mx v = (v - mn) / (mx - mn) := by
  have : mx - mn ≠ 0 := sub_ne_zero.mpr (Ne.symm hne)
  simp [minMaxScale, handleZerosInScale, this]

theorem minMaxScale_max (mn mx : ℚ) (hne : mn ≠ mx) :
    minMaxScale mn mx mx = 1 := by
  have h : mx - mn ≠ 0 := sub_ne_zero.mpr (Ne.symm hne)
  rw [minMaxScale_eq_div mn mx mx hne, div_self h]

theorem minMaxScale_nonneg (mn mx v : ℚ) (h₁ : mn ≤ v) (h₂ : v ≤ mx) :
    0 ≤ minMaxScale mn mx v := by
  by_cases hne : mn = mx
  · have hv : v = mn := le_antisymm (hne ▸ h₂) h₁
    rw [hv, minMaxScale_self]
  · rw [minMaxScale_eq_div mn mx v hne]
    have hlt : mn < mx := lt_of_le_of_ne (le_trans h₁ h₂) hne
    exact div_nonneg (sub_nonneg.mpr h₁) (le_of_lt (sub_pos.mpr hlt))

theorem minMaxScale_le_one (mn mx v : ℚ) (h₁ : mn ≤ v) (h₂ : v ≤ mx) :
    minMaxScale mn mx v ≤ 1 := by
  by_cases hne : mn = mx
  · have hv : v = mn := le_antisymm (hne ▸ h₂) h₁
    rw [hv, minMaxScale_self]
    exact zero_le_one
  · rw [minMaxScale_eq_div mn mx v hne]
    have hlt : mn < mx := lt_of_le_of_ne (le_trans h₁ h₂) hne
    exact (div_le_one (sub_pos.mpr hlt)).mpr (sub_le_sub_right h₂ mn)

/-! ### The polarity loop -/

theorem invertFun_nil : invertFun [] = fun r => r := by
  funext r c
  simp [invertFun]

theorem invertRows_eq_map (bad : List String) (rows : List (String → ℚ)) :
    invertRows bad rows = rows.map (invertFun bad) := by
  induction bad generalizing rows with
  | nil => simp [invertRows, invertFun_nil]
  | cons b bs ih =>
    rw [invertRows, ih, List.map_map]
    congr 1
    funext r c
    simp only [Function.comp, invertFun]
    by_cases hcb : c = b
    · subst hcb
      rw [List.count_cons_self]
      simp only [eq_self_iff_true, if_true]
      by_cases hp : bs.count c % 2 = 0
      · rw [if_pos hp, if_neg (by omega : ¬((bs.count c + 1) % 2 = 0))]
      · rw [if_neg hp, if_pos (by omega : (bs.count c + 1) % 2 = 0)]
        ring
    · rw [List.count_cons_of_ne hcb, if_neg hcb]

theorem correctPolarity_ok (df : DataFrame) (bad : List String)
    (h : ∀ b ∈ bad, b ∈ df.cols) :
    correctPolarity df bad = .ok ⟨df.cols, df.rows.map (invertFun bad)⟩ := by
  rw [← invertRows_eq_map]
  induction bad generalizing df with
  | nil => rfl
  | cons b bs ih =>
    have hb : b ∈ df.cols := h b (List.mem_cons_self b bs)
    show List.foldlM _ _ _ = _
    rw [List.foldlM_cons, if_pos hb]
    have : (invertCol df b).cols = df.cols := rfl
    calc (bs.foldlM _ (invertCol df b) : Except PipelineError DataFrame)
        = correctPolarity (invertCol df b) bs := rfl
      _ = .ok ⟨(invertCol df b).cols, invertRows bs (invertCol df b).rows⟩ :=
          ih (invertCol df b) (fun x hx => h x (List.mem_cons_of_mem b hx))
      _ = .ok ⟨df.cols, invertRows (b :: bs) df.rows⟩ := rfl

theorem correctPolarity_err (df : DataFrame) (bad : List String)
    (h : ∃ b ∈ bad, b ∉ df.cols) :
    correctPolarity df bad = .error .keyError := by
  induction bad generalizing df with
  | nil =>
    obtain ⟨b, hb, _⟩ := h
    cases hb
  | cons b bs ih =>
    show List.foldlM _ _ _ = _
    rw [List.foldlM_cons]
    by_cases hb : b ∈ df.cols
    · rw [if_pos hb]
      obtain ⟨x, hx, hxn⟩ := h
      rcases List.mem_cons.mp hx with rfl | hx'
      · exact absurd hb hxn
      · calc (bs.foldlM _ (invertCol df b) : Except PipelineError DataFrame)
            = correctPolarity (invertCol df b) bs := rfl
          _ = .error .keyError := ih (invertCol df b) ⟨x, hx', hxn⟩
    · rw [if_neg hb]
      rfl

/-! ### The pipeline on well-formed input -/

theorem pipelineWith_ok (good bad : List String) (df : DataFrame)
    (hrows : df.rows ≠ [])
    (hcols : ∀ c ∈ good ++ bad, c ∈ df.cols) :
    pipelineWith good bad df =
      .ok { cols := df.cols
          , rows := correctedRows bad df
          , scores := pipeScores good bad df
          , ranks := (pipeScores good bad df).map (rankOf (pipeScores good bad df)) } := by
  unfold pipelineWith
  rw [if_neg (by simpa [List.isEmpty_iff] using hrows)]
  have hnc : (normalizeDF df).cols = df.cols := rfl
  have hbad : ∀ b ∈ bad, b ∈ (normalizeDF df).cols := by
    intro b hb
    rw [hnc]
    exact hcols b (List.mem_append.mpr (Or.inr hb))
  rw [correctPolarity_ok _ _ hbad]
  have hall : ((good ++ bad).all fun c =>
      decide (c ∈ (⟨(normalizeDF df).cols, (normalizeDF df).rows.map (invertFun bad)⟩ : DataFrame).cols)) = true := by
    rw [List.all_eq_true]
    intro c hc
    exact decide_eq_true (hnc ▸ hcols c hc)
  simp only [hall, if_pos]
  rfl

/-! ### The mean of values in the unit interval -/

theorem meanList_nonneg (vs : List ℚ) (h : ∀ v ∈ vs, 0 ≤ v) :
    0 ≤ meanList vs :=
  div_nonneg (List.sum_nonneg h) (Nat.cast_nonneg vs.length)

theorem meanList_le_one (vs : List ℚ) (h : ∀ v ∈ vs, v ≤ 1) :
    meanList vs ≤ 1 := by
  cases vs with
  | nil => simp [meanList]
  | cons v t =>
    have hlen : (0 : ℚ) < ((v :: t).length : ℚ) := by
      exact_mod_cast Nat.succ_pos t.length
    have hsum : (v :: t).sum ≤ ((v :: t).length : ℚ) := by
      have := List.sum_le_card_nsmul (v :: t) 1 h
      simpa [nsmul_eq_mul] using this
    exact (div_le_one hlen).mpr hsum

/-! ### Constant lists and columns -/

theorem foldl_min_const (t : List ℚ) (k : ℚ) (h : ∀ v ∈ t, v = k) :
    t.foldl min k = k := by
  induction t with
  | nil => rfl
  | cons x t' ih =>
    have hx : x = k := h x (List.mem_cons_self x t')
    subst hx
    rw [List.foldl_cons, min_self]
    exact ih (fun v hv => h v (List.mem_cons_of_mem x hv))

theorem foldl_max_const (t : List ℚ) (k : ℚ) (h : ∀ v ∈ t, v = k) :
    t.foldl max k = k := by
  induction t with
  | nil => rfl
  | cons x t' ih =>
    have hx : x = k := h x (List.mem_cons_self x t')
    subst hx
    rw [List.foldl_cons, max_self]
    exact ih (fun v hv => h v (List.mem_cons_of_mem x hv))

theorem listMin_const (vs : List ℚ) (k : ℚ) (hne : vs ≠ [])
    (h : ∀ v ∈ vs, v = k) : listMin vs = k := by
  cases vs with
  | nil => exact absurd rfl hne
  | cons v t =>
    have hv : v = k := h v (List.mem_cons_self v t)
    subst hv
    exact foldl_min_const t v (fun x hx => h x (List.mem_cons_of_mem v hx))

theorem listMax_const (vs : List ℚ) (k : ℚ) (hne : vs ≠ [])
    (h : ∀ v ∈ vs, v = k) : listMax vs = k := by
  cases vs with
  | nil => exact absurd rfl hne
  | cons v t =>
    have hv : v = k := h v (List.mem_cons_self v t)
    subst hv
    exact foldl_max_const t v (fun x hx => h x (List.mem_cons_of_mem v hx))

theorem colMin_const (df : DataFrame) (c : String) (k : ℚ)
    (hne : df.rows ≠ []) (h : ∀ r ∈ df.rows, r c = k) : colMin df c = k := by
  apply listMin_const _ k
  · simp [colVals, hne]
  · intro v hv
    obtain ⟨r, hr, rfl⟩ := List.mem_map.mp hv
    exact h r hr

theorem colMax_const (df : DataFrame) (c : String) (k : ℚ)
    (hne : df.rows ≠ []) (h : ∀ r ∈ df.rows, r c = k) : colMax df c = k := by
  apply listMax_const _ k
  · simp [colVals, hne]
  · intro v hv
    obtain ⟨r, hr, rfl⟩ := List.mem_map.mp hv
    exact h r hr

/-! ### Rank semantics -/

theorem rankOf_max (scores : List ℚ) (s : ℚ)
    (hmax : ∀ t ∈ scores, t ≤ s) : rankOf scores s = 1 := by
  unfold rankOf
  rw [List.countP_eq_zero.mpr]
  intro t ht
  simpa using not_lt_of_le (hmax t ht)

theorem sorted_desc_indexOf (l : List ℚ) (s : ℚ)
    (hsort : l.Pairwise (fun a b => b ≤ a)) (hmem : s ∈ l) :
    l.indexOf s = l.countP (fun t => decide (s < t)) := by
  induction l with
  | nil => cases hmem
  | cons x t ih =>
    obtain ⟨hx, ht⟩ := List.pairwise_cons.mp hsort
    by_cases hxs : x = s
    · subst hxs
      have h0 : t.countP (fun t' => decide (x < t')) = 0 := by
        rw [List.countP_eq_zero]
        intro a ha
        simpa using not_lt_of_le (hx a ha)
      simp [List.indexOf_cons, List.countP_cons, h0]
    · have hst : s ∈ t := by
        rcases List.mem_cons.mp hmem with rfl | h
        · exact absurd rfl hxs
        · exact h
      have hslt : s < x := lt_of_le_of_ne (hx s hst) (fun h => hxs h.symm)
      have hbeq : (x == s) = false := by
        simp [hxs]
      rw [List.indexOf_cons, hbeq, List.countP_cons]
      rw [ih ht hst]
      simp [hslt, Nat.add_comm]

theorem rankOf_eq_descSort_pos (scores : List ℚ) (s : ℚ) (hmem : s ∈ scores) :
    rankOf scores s = (descSort scores).indexOf s + 1 := by
  have hperm : List.Perm (descSort scores) scores := List.mergeSort_perm scores _
  have hsort : (descSort scores).Pairwise (fun a b : ℚ => b ≤ a) := by
    have htrans : ∀ (a b c : ℚ), decide (b ≤ a) = true → decide (c ≤ b) = true →
        decide (c ≤ a) = true := by
      intro a b c hab hbc
      simp only [decide_eq_true_eq] at *
      exact le_trans hbc hab
    have htotal : ∀ (a b : ℚ), (decide (b ≤ a) || decide (a ≤ b)) = true := by
      intro a b
      rcases le_total b a with h | h <;> simp [h]
    have h := @List.sorted_mergeSort ℚ (fun a b : ℚ => decide (b ≤ a))
      htrans htotal scores
    exact h.imp (fun hab => of_decide_eq_true hab)
  have hmem' : s ∈ descSort scores := hperm.mem_iff.mpr hmem
  have hcnt : (descSort scores).countP (fun t => decide (s < t)) =
      scores.countP (fun t => decide (s < t)) := hperm.countP_eq _
  rw [rankOf, ← hcnt, ← sorted_desc_indexOf _ s hsort hmem', Nat.add_comm]

theorem countP_lt_split (l : List ℚ) (s s' : ℚ)
    (h : ∀ t ∈ l, s' < t ↔ (s < t ∨ t = s)) :
    l.countP (fun t => decide (s' < t)) =
      l.countP (fun t => decide (s < t)) + l.count s := by
  induction l with
  | nil => rfl
  | cons x t ih =>
    have hx := h x (List.mem_cons_self x t)
    have iht := ih (fun a ha => h a (List.mem_cons_of_mem x ha))
    by_cases hxs : x = s
    · have h1 : s' < x := hx.mpr (Or.inr hxs)
      have h2 : ¬(s < x) := by
        rw [hxs]
        exact lt_irrefl s
      have h3 : s = x := hxs.symm
      simp [List.countP_cons, List.count_cons, h1, h2, h3, iht]
      omega
    · have h3 : s ≠ x := fun hh => hxs hh.symm
      by_cases hlt : s < x
      · have h1 : s' < x := hx.mpr (Or.inl hlt)
        simp [List.countP_cons, List.count_cons, h1, hlt, h3, iht]
        omega
      · have h1 : ¬(s' < x) := fun hh => by
          rcases hx.mp hh with h' | h'
          · exact hlt h'
          · exact hxs h'
        simp [List.countP_cons, List.count_cons, h1, hlt, h3, iht]

theorem rankOf_next_distinct (scores : List ℚ) (s s' : ℚ)
    (hlt : s' < s) (hgap : ∀ t ∈ scores, ¬(s' < t ∧ t < s)) :
    rankOf scores s' = rankOf scores s + scores.count s := by
  unfold rankOf
  rw [countP_lt_split scores s s']
  · omega
  · intro t ht
    constructor
    · intro h1
      by_cases h2 : t < s
      · exact absurd ⟨h1, h2⟩ (hgap t ht)
      · rcases lt_or_eq_of_le (le_of_not_lt h2) with h3 | h3
        · exact Or.inl h3
        · exact Or.inr h3.symm
    · rintro (h1 | rfl)
      · exact lt_trans hlt h1
      · exact hlt

/-! ### Values of normalized and corrected rows -/

theorem normRow_feature (df : DataFrame) (c : String) (hc : c ∈ features df)
    (r : String → ℚ) :
    normRow df r c = minMaxScale (colMin df c) (colMax df c) (r c) := by
  simp only [normRow]
  rw [if_pos hc]

theorem normRow_unit_interval (df : DataFrame) (c : String)
    (hc : c ∈ features df) (r : String → ℚ) (hr : r ∈ df.rows) :
    0 ≤ normRow df r c ∧ normRow df r c ≤ 1 := by
  have h1 := colMin_le_row df c r hr
  have h2 := row_le_colMax df c r hr
  rw [normRow_feature df c hc r]
  exact ⟨minMaxScale_nonneg _ _ _ h1 h2, minMaxScale_le_one _ _ _ h1 h2⟩

theorem invertFun_unit_interval (bad : List String) (r : String → ℚ)
    (c : String) (h0 : 0 ≤ r c) (h1 : r c ≤ 1) :
    0 ≤ invertFun bad r c ∧ invertFun bad r c ≤ 1 := by
  unfold invertFun
  by_cases hp : bad.count c % 2 = 0
  · rw [if_pos hp]
    exact ⟨h0, h1⟩
  · rw [if_neg hp]
    constructor <;> linarith

theorem invertFun_of_mem (bad : List String) (hnd : bad.Nodup)
    (r : String → ℚ) (c : String) (hc : c ∈ bad) :
    invertFun bad r c = 1 - r c := by
  unfold invertFun
  rw [List.count_eq_one_of_mem hnd hc]
  rfl

theorem invertFun_of_not_mem (bad : List String) (r : String → ℚ)
    (c : String) (hc : c ∉ bad) : invertFun bad r c = r c := by
  unfold invertFun
  rw [List.count_eq_zero.mpr hc]
  rfl

theorem pipeScores_eq_map (good bad : List String) (df : DataFrame) :
    pipeScores good bad df =
      df.rows.map
        (fun r => scoreRow (good ++ bad) (invertFun bad (normRow df r))) := by
  unfold pipeScores correctedRows normalizeDF
  rw [List.map_map, List.map_map]
  rfl

theorem map_eq_of_forall₂ {α β : Type} {l₁ l₂ : List α} {F₁ F₂ : α → β}
    (h : List.Forall₂ (fun a b => F₁ a = F₂ b) l₁ l₂) :
    l₁.map F₁ = l₂.map F₂ := by
  induction h with
  | nil => rfl
  | cons hab _ ih => simp [ih, hab]

theorem forall₂_of_colmaps (sel : List String) :
    ∀ (l₁ l₂ : List (String → ℚ)), l₁.length = l₂.length →
    (∀ c ∈ sel, l₁.map (fun r => r c) = l₂.map (fun r => r c)) →
    List.Forall₂ (fun r₁ r₂ : String → ℚ => ∀ c ∈ sel, r₁ c = r₂ c) l₁ l₂ := by
  intro l₁
  induction l₁ with
  | nil =>
    intro l₂ hlen _
    cases l₂ with
    | nil => constructor
    | cons r t => simp at hlen
  | cons r₁ t₁ ih =>
    intro l₂ hlen hmaps
    cases l₂ with
    | nil => simp at hlen
    | cons r₂ t₂ =>
      constructor
      · intro c hc
        exact (List.cons.injEq _ _ _ _ ▸ hmaps c hc).1
      · refine ih t₂ (by simpa using hlen) ?_
        intro c hc
        exact (List.cons.injEq _ _ _ _ ▸ hmaps c hc).2

/-! ### Claim theorems -/

/-- C6: polarity correction replaces the value `v` of every record in every
bad column with `1 - v` and leaves every column not listed as bad
unchanged. -/
theorem C6_polarity_correction (df : DataFrame) (bad : List String)
    (hsub : ∀ b ∈ bad, b ∈ df.cols) (hnd : bad.Nodup) :
    ∃ cd, correctPolarity df bad = .ok cd ∧ cd.cols = df.cols ∧
      List.Forall₂ (fun r cr : String → ℚ =>
        ∀ c : String, cr c = if c ∈ bad then 1 - r c else r c)
        df.rows cd.rows := by
  refine ⟨⟨df.cols, df.rows.map (invertFun bad)⟩,
    correctPolarity_ok df bad hsub, rfl, ?_⟩
  rw [List.forall₂_map_right_iff]
  rw [List.forall₂_same]
  intro r _ c
  by_cases hc : c ∈ bad
  · rw [if_pos hc, invertFun_of_mem bad hnd r c hc]
  · rw [if_neg hc, invertFun_of_not_mem bad r c hc]

/-- C6 witness: the scenario frame with `bad = {B}`. -/
theorem C6_polarity_correction_witness :
    ∃ cd, correctPolarity dfScenario ["B"] = .ok cd ∧
      cd.cols = dfScenario.cols ∧
      List.Forall₂ (fun r cr : String → ℚ =>
        ∀ c : String, cr c = if c ∈ ["B"] then 1 - r c else r c)
        dfScenario.rows cd.rows :=
  C6_polarity_correction dfScenario ["B"] (by decide) (by decide)

/-- C7: applying the polarity correction twice with the same bad columns
returns the original values (exactly, in rational arithmetic). -/
theorem C7_polarity_self_inverse (df : DataFrame) (bad : List String)
    (hsub : ∀ b ∈ bad, b ∈ df.cols) :
    ∃ cd cd₂, correctPolarity df bad = .ok cd ∧
      correctPolarity cd bad = .ok cd₂ ∧ cd₂.cols = df.cols ∧
      List.Forall₂ (fun r r₂ : String → ℚ => ∀ c : String, r₂ c = r c)
        df.rows cd₂.rows := by
  refine ⟨⟨df.cols, df.rows.map (invertFun bad)⟩,
    ⟨df.cols, (df.rows.map (invertFun bad)).map (invertFun bad)⟩,
    correctPolarity_ok df bad hsub,
    correctPolarity_ok ⟨df.cols, df.rows.map (invertFun bad)⟩ bad hsub, rfl, ?_⟩
  rw [List.map_map, List.forall₂_map_right_iff, List.forall₂_same]
  intro r _ c
  simp only [Function.comp, invertFun]
  by_cases hp : bad.count c % 2 = 0
  · rw [if_pos hp, if_pos hp]
  · rw [if_neg hp, if_neg hp]
    ring

/-- C7 witness: the scenario frame, corrected twice on `B`. -/
theorem C7_polarity_self_inverse_witness :
    ∃ cd cd₂, correctPolarity dfScenario ["B"] = .ok cd ∧
      correctPolarity cd ["B"] = .ok cd₂ ∧ cd₂.cols = dfScenario.cols ∧
      List.Forall₂ (fun r r₂ : String → ℚ => ∀ c : String, r₂ c = r c)
        dfScenario.rows cd₂.rows :=
  C7_polarity_self_inverse dfScenario ["B"] (by decide)

/-- C3: when a feature column's batch minimum and maximum differ, every
record's normalized value is `(raw - min) / (max - min)`, lies in `[0,1]`,
and the records attaining the minimum and maximum map to 0 and 1. -/
theorem C3_minmax_normalization (df : DataFrame) (c : String)
    (hc : c ∈ features df) (hne : colMin df c ≠ colMax df c) :
    (normalizeDF df).rows = df.rows.map (normRow df) ∧
    ∀ r ∈ df.rows,
      normRow df r c = (r c - colMin df c) / (colMax df c - colMin df c) ∧
      0 ≤ normRow df r c ∧ normRow df r c ≤ 1 ∧
      (r c = colMin df c → normRow df r c = 0) ∧
      (r c = colMax df c → normRow df r c = 1) := by
  refine ⟨rfl, fun r hr => ?_⟩
  have h1 := colMin_le_row df c r hr
  have h2 := row_le_colMax df c r hr
  have heq := normRow_feature df c hc r
  refine ⟨?_, ?_, ?_, ?_, ?_⟩
  · rw [heq, minMaxScale_eq_div _ _ _ hne]
  · rw [heq]
    exact minMaxScale_nonneg _ _ _ h1 h2
  · rw [heq]
    exact minMaxScale_le_one _ _ _ h1 h2
  · intro h
    rw [heq, h, minMaxScale_self]
  · intro h
    rw [heq, h, minMaxScale_max _ _ hne]

/-- C3 witness: the rainfall column of the full-schema frame. -/
theorem C3_minmax_normalization_witness :
    (normalizeDF dfFull).rows = dfFull.rows.map (normRow dfFull) ∧
    ∀ r ∈ dfFull.rows,
      normRow dfFull r "Rain_dist_Mean_Rainfall_mm" =
        (r "Rain_dist_Mean_Rainfall_mm" -
          colMin dfFull "Rain_dist_Mean_Rainfall_mm") /
        (colMax dfFull "Rain_dist_Mean_Rainfall_mm" -
          colMin dfFull "Rain_dist_Mean_Rainfall_mm") ∧
      0 ≤ normRow dfFull r "Rain_dist_Mean_Rainfall_mm" ∧
      normRow dfFull r "Rain_dist_Mean_Rainfall_mm" ≤ 1 ∧
      (r "Rain_dist_Mean_Rainfall_mm" =
          colMin dfFull "Rain_dist_Mean_Rainfall_mm" →
        normRow dfFull r "Rain_dist_Mean_Rainfall_mm" = 0) ∧
      (r "Rain_dist_Mean_Rainfall_mm" =
          colMax dfFull "Rain_dist_Mean_Rainfall_mm" →
        normRow dfFull r "Rain_dist_Mean_Rainfall_mm" = 1) :=
  C3_minmax_normalization dfFull "Rain_dist_Mean_Rainfall_mm"
    (by decide) (by decide)

/-- C4: a constant column triggers sklearn's zero-range guard, normalizes to
0 for every record, and the pipeline still produces a full result. -/
theorem C4_constant_column_fallback (df : DataFrame) (c : String)
    (hc : c ∈ features df) (hconst : colMin df c = colMax df c)
    (hrows : df.rows ≠ [])
    (hfeat : ∀ x ∈ goodCols ++ badCols, x ∈ features df) :
    handleZerosInScale (colMax df c - colMin df c) = 1 ∧
    (∀ r ∈ (normalizeDF df).rows, r c = 0) ∧
    ∃ out, pipeline df = .ok out ∧ out.rows.length = df.rows.length ∧
      out.scores.length = df.rows.length ∧
      out.ranks.length = df.rows.length := by
  refine ⟨?_, ?_, ?_⟩
  · rw [hconst]
    simp [handleZerosInScale]
  · intro nr hnr
    obtain ⟨r, hr, rfl⟩ := List.mem_map.mp hnr
    have h1 := colMin_le_row df c r hr
    have h2 := row_le_colMax df c r hr
    have hv : r c = colMin df c := le_antisymm (hconst ▸ h2) h1
    rw [normRow_feature df c hc r, hv, minMaxScale_self]
  · have hcols : ∀ x ∈ goodCols ++ badCols, x ∈ df.cols := fun x hx =>
      List.drop_subset 1 df.cols (hfeat x hx)
    refine ⟨_, pipelineWith_ok goodCols badCols df hrows hcols, ?_, ?_, ?_⟩
    · simp [correctedRows, normalizeDF]
    · simp [pipeScores, correctedRows, normalizeDF]
    · simp [pipeScores, correctedRows, normalizeDF]

/-- C4 witness: the constant carbon-monoxide column of the full frame. -/
theorem C4_constant_column_fallback_witness :
    handleZerosInScale (colMax dfFull "co_dist_Mean_CO" -
      colMin dfFull "co_dist_Mean_CO") = 1 ∧
    (∀ r ∈ (normalizeDF dfFull).rows, r "co_dist_Mean_CO" = 0) ∧
    ∃ out, pipeline dfFull = .ok out ∧
      out.rows.length = dfFull.rows.length ∧
      out.scores.length = dfFull.rows.length ∧
      out.ranks.length = dfFull.rows.length :=
  C4_constant_column_fallback dfFull "co_dist_Mean_CO" (by decide)
    (by decide) (by simp [dfFull]) (by decide)

/-- C1: each record's environmental score is the unweighted arithmetic mean
of its polarity-corrected normalized values over `good ∪ bad`, and on
well-formed input every score lies in `[0, 1]`. -/
theorem C1_score_mean_in_unit_interval (df : DataFrame)
    (hrows : df.rows ≠ [])
    (hfeat : ∀ c ∈ goodCols ++ badCols, c ∈ features df) :
    ∃ out, pipeline df = .ok out ∧
      out.scores = out.rows.map (fun r => meanList ((goodCols ++ badCols).map r)) ∧
      ∀ s ∈ out.scores, 0 ≤ s ∧ s ≤ 1 := by
  have hcols : ∀ c ∈ goodCols ++ badCols, c ∈ df.cols := fun c hc =>
    List.drop_subset 1 df.cols (hfeat c hc)
  refine ⟨_, pipelineWith_ok goodCols badCols df hrows hcols, rfl, ?_⟩
  intro s hs
  obtain ⟨cr, hcr, rfl⟩ := List.mem_map.mp hs
  obtain ⟨nr, hnr, rfl⟩ := List.mem_map.mp hcr
  obtain ⟨r, hr, rfl⟩ := List.mem_map.mp hnr
  have hbnd : ∀ v ∈ (goodCols ++ badCols).map (invertFun badCols (normRow df r)),
      0 ≤ v ∧ v ≤ 1 := by
    intro v hv
    obtain ⟨c, hc, rfl⟩ := List.mem_map.mp hv
    have hn := normRow_unit_interval df c (hfeat c hc) r hr
    exact invertFun_unit_interval badCols (normRow df r) c hn.1 hn.2
  exact ⟨meanList_nonneg _ (fun v hv => (hbnd v hv).1),
    meanList_le_one _ (fun v hv => (hbnd v hv).2)⟩

/-- C1 witness: the full-schema three-row frame. -/
theorem C1_score_mean_in_unit_interval_witness :
    ∃ out, pipeline dfFull = .ok out ∧
      out.scores =
        out.rows.map (fun r => meanList ((goodCols ++ badCols).map r)) ∧
      ∀ s ∈ out.scores, 0 ≤ s ∧ s ≤ 1 :=
  C1_score_mean_in_unit_interval dfFull (by simp [dfFull]) (by decide)

/-- C10: a bad column constant across the batch normalizes to 0 by the
zero-fallback and is inverted to 1, contributing 1 to every record's score
mean. -/
theorem C10_constant_bad_column (df : DataFrame) (c : String) (k : ℚ)
    (hcb : c ∈ badCols) (hrows : df.rows ≠ [])
    (hfeat : ∀ x ∈ goodCols ++ badCols, x ∈ features df)
    (hk : ∀ r ∈ df.rows, r c = k) :
    ∃ out, pipeline df = .ok out ∧ (∀ r ∈ out.rows, r c = 1) ∧
      out.scores =
        out.rows.map (fun r => meanList ((goodCols ++ badCols).map r)) := by
  have hcols : ∀ x ∈ goodCols ++ badCols, x ∈ df.cols := fun x hx =>
    List.drop_subset 1 df.cols (hfeat x hx)
  refine ⟨_, pipelineWith_ok goodCols badCols df hrows hcols, ?_, rfl⟩
  intro cr hcr
  obtain ⟨nr, hnr, rfl⟩ := List.mem_map.mp hcr
  obtain ⟨r, hr, rfl⟩ := List.mem_map.mp hnr
  have hcf : c ∈ features df :=
    hfeat c (List.mem_append.mpr (Or.inr hcb))
  have hmin := colMin_const df c k hrows hk
  have hmax := colMax_const df c k hrows hk
  have hnorm : normRow df r c = 0 := by
    rw [normRow_feature df c hcf r, hmin, hmax, hk r hr, minMaxScale_self]
  rw [invertFun_of_mem badCols (by decide) _ c hcb, hnorm, sub_zero]

/-- C10 witness: the constant carbon-monoxide column (value 7). -/
theorem C10_constant_bad_column_witness :
    ∃ out, pipeline dfFull = .ok out ∧
      (∀ r ∈ out.rows, r "co_dist_Mean_CO" = 1) ∧
      out.scores =
        out.rows.map (fun r => meanList ((goodCols ++ badCols).map r)) :=
  C10_constant_bad_column dfFull "co_dist_Mean_CO" 7 (by decide)
    (by simp [dfFull]) (by decide) (by decide)

/-- C5 counterexample: on a frame missing the schema columns the pipeline
fails with pandas' `KeyError`, not with the spec's `InvalidSchemaError`
(no such exception class exists anywhere in the source). -/
theorem C5_keyError_not_invalidSchemaError :
    pipeline dfMissing = .error .keyError ∧
    (Except.error PipelineError.keyError : Except PipelineError ScoredFrame) ≠
      .error .invalidSchemaError := by
  constructor
  · show pipelineWith goodCols badCols dfMissing = _
    unfold pipelineWith
    rw [if_neg (by simp [dfMissing])]
    rw [correctPolarity_err _ _ ⟨"co_dist_Mean_CO", by decide, by decide⟩]
  · intro h
    exact absurd (Except.error.inj h) (by decide)

/-- C5 (amended): a missing schema column or an empty input batch makes the
pipeline fail with an error — `KeyError`/`ValueError`, never the spec's
`InvalidSchemaError` — and an `Except.error` result carries no partial
scored output. -/
theorem C5_schema_failure (df : DataFrame)
    (h : (∃ c ∈ goodCols ++ badCols, c ∉ df.cols) ∨ df.rows = []) :
    ∃ e, pipeline df = .error e ∧ e ≠ PipelineError.invalidSchemaError := by
  by_cases hre : df.rows = []
  · refine ⟨.valueError, ?_, by decide⟩
    show pipelineWith goodCols badCols df = _
    unfold pipelineWith
    rw [if_pos (by simp [hre])]
  · rcases h with ⟨c, hc, hcn⟩ | h'
    · by_cases hbm : ∃ b ∈ badCols, b ∉ df.cols
      · refine ⟨.keyError, ?_, by decide⟩
        show pipelineWith goodCols badCols df = _
        unfold pipelineWith
        rw [if_neg (by simpa [List.isEmpty_iff] using hre)]
        rw [correctPolarity_err (normalizeDF df) badCols hbm]
      · push_neg at hbm
        refine ⟨.keyError, ?_, by decide⟩
        show pipelineWith goodCols badCols df = _
        unfold pipelineWith
        rw [if_neg (by simpa [List.isEmpty_iff] using hre)]
        rw [correctPolarity_ok (normalizeDF df) badCols hbm]
        have hfalse : ((goodCols ++ badCols).all
            (fun x => decide (x ∈ (normalizeDF df).cols))) = false :=
          List.all_eq_false.mpr ⟨c, hc, by simpa [normalizeDF] using hcn⟩
        simp only [hfalse]
        rfl
    · exact absurd h' hre

/-- C5 witness: the frame missing every schema column. -/
theorem C5_schema_failure_witness :
    ∃ e, pipeline dfMissing = .error e ∧
      e ≠ PipelineError.invalidSchemaError :=
  C5_schema_failure dfMissing (Or.inl ⟨"co_dist_Mean_CO", by decide, by decide⟩)

/-- C8: the script writes only the derived `scaled_data`; the raw frame is
unchanged, and the scored output is a pure function of the raw frame. -/
theorem C8_no_side_effects (s : DashState) :
    (runScript s).df = s.df ∧ (runScript s).scaled = pipeline s.df ∧
    ∀ s' : DashState, s'.df = s.df →
      (runScript s').scaled = (runScript s).scaled := by
  refine ⟨rfl, rfl, fun s' h => ?_⟩
  simp [runScript, h]

/-- C8 witness: a concrete state built from the scenario frame. -/
theorem C8_no_side_effects_witness :
    (runScript ⟨dfScenario, Except.error PipelineError.keyError⟩).df =
      dfScenario ∧
    (runScript ⟨dfScenario, Except.error PipelineError.keyError⟩).scaled =
      pipeline dfScenario :=
  ⟨(C8_no_side_effects ⟨dfScenario, Except.error PipelineError.keyError⟩).1,
   (C8_no_side_effects ⟨dfScenario, Except.error PipelineError.keyError⟩).2.1⟩

/-- C9: two batches agreeing on the eight schema columns produce identical
scores and ranks, whatever the values of any additional numeric columns. -/
theorem C9_extra_columns_irrelevant (df₁ df₂ : DataFrame)
    (hlen : df₁.rows.length = df₂.rows.length)
    (hne : df₁.rows ≠ [])
    (hf₁ : ∀ c ∈ goodCols ++ badCols, c ∈ features df₁)
    (hf₂ : ∀ c ∈ goodCols ++ badCols, c ∈ features df₂)
    (hagree : ∀ c ∈ goodCols ++ badCols, colVals df₁ c = colVals df₂ c) :
    ∃ o₁ o₂, pipeline df₁ = .ok o₁ ∧ pipeline df₂ = .ok o₂ ∧
      o₁.scores = o₂.scores ∧ o₁.ranks = o₂.ranks := by
  have hne₂ : df₂.rows ≠ [] := by
    intro h
    apply hne
    have h0 : df₁.rows.length = 0 := by rw [hlen, h, List.length_nil]
    exact List.length_eq_zero.mp h0
  have hcols₁ : ∀ c ∈ goodCols ++ badCols, c ∈ df₁.cols := fun c hc =>
    List.drop_subset 1 df₁.cols (hf₁ c hc)
  have hcols₂ : ∀ c ∈ goodCols ++ badCols, c ∈ df₂.cols := fun c hc =>
    List.drop_subset 1 df₂.cols (hf₂ c hc)
  have hfa : List.Forall₂
      (fun r₁ r₂ : String → ℚ => ∀ c ∈ goodCols ++ badCols, r₁ c = r₂ c)
      df₁.rows df₂.rows :=
    forall₂_of_colmaps (goodCols ++ badCols) df₁.rows df₂.rows hlen
      (fun c hc => by simpa [colVals] using hagree c hc)
  have hscores : pipeScores goodCols badCols df₁ =
      pipeScores goodCols badCols df₂ := by
    rw [pipeScores_eq_map, pipeScores_eq_map]
    apply map_eq_of_forall₂
    refine hfa.imp ?_
    intro r₁ r₂ hR
    unfold scoreRow
    refine congrArg meanList (List.map_congr_left ?_)
    intro c hc
    have hnr : normRow df₁ r₁ c = normRow df₂ r₂ c := by
      rw [normRow_feature df₁ c (hf₁ c hc), normRow_feature df₂ c (hf₂ c hc)]
      have hmn : colMin df₁ c = colMin df₂ c := by
        unfold colMin
        rw [hagree c hc]
      have hmx : colMax df₁ c = colMax df₂ c := by
        unfold colMax
        rw [hagree c hc]
      rw [hmn, hmx, hR c hc]
    simp only [invertFun]
    rw [hnr]
  refine ⟨_, _, pipelineWith_ok goodCols badCols df₁ hne hcols₁,
    pipelineWith_ok goodCols badCols df₂ hne₂ hcols₂, hscores, ?_⟩
  show (pipeScores goodCols badCols df₁).map
      (rankOf (pipeScores goodCols badCols df₁)) = _
  rw [hscores]

/-- C9 witness: the full frame extended with an extra column holding
different values in the two batches. -/
theorem C9_extra_columns_irrelevant_witness :
    ∃ o₁ o₂, pipeline (dfWithExtra 100 200 300) = .ok o₁ ∧
      pipeline (dfWithExtra 5 6 7) = .ok o₂ ∧
      o₁.scores = o₂.scores ∧ o₁.ranks = o₂.ranks :=
  C9_extra_columns_irrelevant (dfWithExtra 100 200 300) (dfWithExtra 5 6 7)
    (by decide) (by simp [dfWithExtra, dfFull]) (by decide) (by decide)
    (by decide)

/-- C2: pandas' `rank(ascending=False, method='min')` realizes min
competition ranking: the top score gets rank 1; every member of a tie group
gets the 1-based position of the group's first member in descending order;
the next distinct lower score gets that rank plus the group size; and in the
spec's three-district scenario all scores are 1/2 and all ranks are 1. -/
theorem C2_rank_min_semantics :
    (∀ (scores : List ℚ) (s : ℚ), s ∈ scores → (∀ t ∈ scores, t ≤ s) →
      rankOf scores s = 1) ∧
    (∀ (scores : List ℚ) (s : ℚ), s ∈ scores →
      rankOf scores s = (descSort scores).indexOf s + 1) ∧
    (∀ (scores : List ℚ) (s s' : ℚ), s ∈ scores → s' < s →
      (∀ t ∈ scores, ¬(s' < t ∧ t < s)) →
      rankOf scores s' = rankOf scores s + scores.count s) ∧
    (∃ out, pipelineWith ["A"] ["B"] dfScenario = .ok out ∧
      out.scores = [1/2, 1/2, 1/2] ∧ out.ranks = [1, 1, 1]) := by
  refine ⟨fun scores s _ hmax => rankOf_max scores s hmax,
    fun scores s hmem => rankOf_eq_descSort_pos scores s hmem,
    fun scores s s' _ hlt hgap => rankOf_next_distinct scores s s' hlt hgap,
    ?_⟩
  have hs : pipeScores ["A"] ["B"] dfScenario = [1/2, 1/2, 1/2] := by
    simp [pipeScores, correctedRows, normalizeDF, normRow, features, colMin,
      colMax, colVals, listMin, listMax, minMaxScale, handleZerosInScale,
      invertFun, scoreRow, meanList, dfScenario, rowOf]
    norm_num
  refine ⟨_, pipelineWith_ok ["A"] ["B"] dfScenario
    (by simp [dfScenario]) (by decide), hs, ?_⟩
  show (pipeScores ["A"] ["B"] dfScenario).map
      (rankOf (pipeScores ["A"] ["B"] dfScenario)) = _
  rw [hs]
  have h1 : rankOf [1/2, 1/2, 1/2] (1/2 : ℚ) = 1 := by
    apply rankOf_max
    intro t ht
    rcases List.mem_cons.mp ht with rfl | ht'
    · exact le_refl _
    rcases List.mem_cons.mp ht' with rfl | ht''
    · exact le_refl _
    rcases List.mem_cons.mp ht'' with rfl | ht'''
    · exact le_refl _
    · cases ht'''
  simp only [List.map_cons, List.map_nil, h1]

/-- C2 witness: the general conjuncts applied at concrete score lists. -/
theorem C2_rank_min_semantics_witness :
    rankOf [(1 : ℚ), 2] 2 = 1 ∧
    rankOf [(1 : ℚ), 2] 2 = (descSort [(1 : ℚ), 2]).indexOf 2 + 1 ∧
    rankOf [(1 : ℚ), 2, 2] 1 =
      rankOf [(1 : ℚ), 2, 2] 2 + List.count 2 [(1 : ℚ), 2, 2] :=
  ⟨C2_rank_min_semantics.1 [(1 : ℚ), 2] 2 (by decide) (by decide),
   C2_rank_min_semantics.2.1 [(1 : ℚ), 2] 2 (by decide),
   C2_rank_min_semantics.2.2.1 [(1 : ℚ), 2, 2] 2 1 (by decide) (by decide)
     (by decide)⟩

end Dashboard
